import Mathlib

/-!
Verification development for the Buscar_BOE repository.

The development shallowly embeds the document-extraction, topic-classification,
digest-rendering and orchestration pipeline of `boe_digest.py`, together with
the chat-page extractors `_extract_sumario_entries` (app.py) and
`extraer_documentos_sumario` (pages/2).  Decoded JSON values are modelled by
the inductive `Json`; Python-level operations used by the source (truthiness,
`str()`, `dict.get`, the `in` operator, `str.lower`, `str.startswith`,
`str.title`) are modelled by the `py*` helpers below.  External collaborators
(the HTTP fetch and the SMTP transport) enter as explicit parameters carrying
their outcome, exactly at the points where the source calls them.
-/

/-- A decoded JSON value, as produced by `response.json()` / `json.loads`:
objects keep their key insertion order.  Numbers are modelled as integers
(no claim concerns non-integral numbers). -/
inductive Json where
  | null : Json
  | bool (b : Bool) : Json
  | num (n : Int) : Json
  | str (s : String) : Json
  | arr (elems : List Json) : Json
  | obj (entries : List (String × Json)) : Json

/-- Python truthiness of a decoded JSON value: `None`, `False`, `0`, `""`,
`[]` and a dict with no items are falsy, everything else is truthy. -/
def jsonTruthy : Json → Bool
  | .null => false
  | .bool b => b
  | .num n => n != 0
  | .str s => s != ""
  | .arr xs => !xs.isEmpty
  | .obj kvs => !kvs.isEmpty

/-- Lookup in a decoded JSON object, modelling `dict.get(k)`.  Objects decoded
from JSON have unique keys, so taking the first matching entry agrees with the
Python dict. -/
def pyGet (kvs : List (String × Json)) (k : String) : Option Json :=
  (kvs.find? (fun kv => kv.1 == k)).map (fun kv => kv.2)

/-- Lookup with a default, modelling `dict.get(k, d)`. -/
def pyGetD (kvs : List (String × Json)) (k : String) (d : Json) : Json :=
  (pyGet kvs k).getD d

/-- Key membership in a decoded JSON object, modelling `k in d` on a dict. -/
def pyHasKey (kvs : List (String × Json)) (k : String) : Bool :=
  kvs.any (fun kv => kv.1 == k)

/-- Key membership on an arbitrary JSON value (false on non-objects). -/
def jsonHasKey : Json → String → Bool
  | .obj kvs, k => pyHasKey kvs k
  | _, _ => false

/-- Does the character list `pre` start the character list `s`? -/
def chrsLead : List Char → List Char → Bool
  | [], _ => true
  | _ :: _, [] => false
  | a :: as, b :: bs => a == b && chrsLead as bs

/-- Models `s.startswith(pre)` on Python strings. -/
def pyStarts (s : String) (pre : String) : Bool :=
  chrsLead pre.data s.data

/-- Models Python `needle in hay` substring containment on strings. -/
def pyIn (needle hay : String) : Bool :=
  hay.data.tails.any (fun t => chrsLead needle.data t)

/-- ASCII lower-casing of one character.  Models `str.lower` on the character
range exercised by the repository (keywords and inputs are already lowercase
outside ASCII). -/
def lowChar (c : Char) : Char :=
  if 65 ≤ c.toNat ∧ c.toNat ≤ 90 then Char.ofNat (c.toNat + 32) else c

/-- ASCII upper-casing of one character. -/
def upChar (c : Char) : Char :=
  if 97 ≤ c.toNat ∧ c.toNat ≤ 122 then Char.ofNat (c.toNat - 32) else c

/-- Models `str.lower()`. -/
def pyLower (s : String) : String :=
  (s.data.map lowChar).asString

/-- Is the character a cased letter for the purposes of `str.title()`?
ASCII letters plus the Latin accented range used by the topic names. -/
def isCased (c : Char) : Bool :=
  (65 ≤ c.toNat && c.toNat ≤ 90) || (97 ≤ c.toNat && c.toNat ≤ 122) ||
    (192 ≤ c.toNat && c.toNat ≤ 383)

/-- Models `str.title()`: a cased letter not preceded by a cased letter is
upper-cased, a cased letter preceded by one is lower-cased. -/
def pyTitle (s : String) : String :=
  (s.data.foldl
    (fun (acc : List Char × Bool) c =>
      ((acc.1 ++ [if acc.2 then lowChar c else upChar c]), isCased c))
    ([], false)).1.asString

mutual

/-- Models Python `str()` on a decoded JSON value (`asRepr := false`) and
`repr()` (`asRepr := true`, used for elements of containers).  The escaping
`repr` performs inside string literals is not modelled; no claim exercises
it (document fields in scope are plain scalar strings). -/
def pyStrAux : (asRepr : Bool) → Json → String
  | asRepr, .str s => if asRepr then "\x27" ++ s ++ "\x27" else s
  | _, .null => "None"
  | _, .bool b => if b then "True" else "False"
  | _, .num n => toString n
  | _, .arr xs => "[" ++ pyStrList xs ++ "]"
  | _, .obj kvs => "\x7b" ++ pyStrObj kvs ++ "\x7d"

/-- Comma-joined `repr`s of list elements. -/
def pyStrList : List Json → String
  | [] => ""
  | [x] => pyStrAux true x
  | x :: y :: rest => pyStrAux true x ++ ", " ++ pyStrList (y :: rest)

/-- Comma-joined `repr(k): repr(v)` items of a dict. -/
def pyStrObj : List (String × Json) → String
  | [] => ""
  | [kv] => "\x27" ++ kv.1 ++ "\x27: " ++ pyStrAux true kv.2
  | kv :: kw :: rest => "\x27" ++ kv.1 ++ "\x27: " ++ pyStrAux true kv.2 ++ ", " ++ pyStrObj (kw :: rest)

end

/-- Models `str(v)` as used in f-string interpolation. -/
def pyStr (j : Json) : String := pyStrAux false j

/-- Models Python `needle in x` for the values the orchestrator applies it to:
key membership on dicts, element membership on lists, substring on strings.
On numbers and the remaining scalars Python raises `TypeError`; that case is
unreachable in the claims and modelled as `false`. -/
def pyInStr (needle : String) : Json → Bool
  | .obj kvs => pyHasKey kvs needle
  | .arr xs => xs.any (fun x => match x with | .str s => s == needle | _ => false)
  | .str s => pyIn needle s
  | _ => false

/-! ## boe_digest.py : topic table and extraction -/

/-- The fixed topic table `TEMAS_BOE` of boe_digest.py, as an ordered list of
(topic, keyword list) pairs in its declaration order. -/
def TEMAS_BOE : List (String × List String) := [
  ("economía", ["impuesto", "fiscal", "tribut", "económ", "financ", "banco", "comercio", "empresa"]),
  ("empleo", ["laboral", "trabajo", "empleo", "salarial", "pension", "seguridad social", "contrato"]),
  ("educación", ["educación", "educativo", "universidad", "escolar", "formación", "docente"]),
  ("sanidad", ["salud", "sanit", "médic", "hospital", "farmac", "medicamento", "epidem"]),
  ("justicia", ["penal", "procesal", "judicial", "tribunal", "sentencia", "delito", "código"]),
  ("medio_ambiente", ["ambient", "ecolog", "clima", "sostenib", "residuo", "contamin", "energ"]),
  ("vivienda", ["vivienda", "alquiler", "inmobiliar", "hipoteca", "arrendamiento", "edificación"]),
  ("transporte", ["transport", "tráfico", "circulación", "vehículo", "carretera", "ferrocarril"]),
  ("administración", ["administr", "público", "funcionario", "oposición", "concurso", "nombramiento"])]

/-- A document record built by `extraer_documentos` in boe_digest.py.  The
values are the raw JSON values found at (or defaulted for) the corresponding
keys, exactly as the Python dict stores them. -/
structure Doc where
  titulo : Json
  seccion : Json
  departamento : Json
  rango : Json
  url_pdf : Json
  url_html : Json
  url_xml : Json

/-- The match condition of `extraer_documentos`:
`"titulo" in obj and any(k.startswith("url") for k in obj.keys())`. -/
def docMatch (kvs : List (String × Json)) : Bool :=
  pyHasKey kvs "titulo" && kvs.any (fun kv => pyStarts kv.1 "url")

/-- The record `extraer_documentos` appends for a matching node. -/
def buildDoc (kvs : List (String × Json)) : Doc :=
  { titulo := pyGetD kvs "titulo" (.str "Sin título")
    seccion := pyGetD kvs "seccion" (.str "")
    departamento := pyGetD kvs "departamento" (.str "")
    rango := pyGetD kvs "rango" (.str "")
    url_pdf := pyGetD kvs "urlPdf" (.str "")
    url_html := pyGetD kvs "urlHtml" (.str "")
    url_xml := pyGetD kvs "urlXml" (.str "") }

mutual

/-- Embeds `extraer_documentos` of boe_digest.py: a pre-order depth-first walk that
appends a record for every matching dict node and always keeps descending
into the node's values. -/
def extraer_documentos : Json → List Doc
  | .obj kvs => (if docMatch kvs then [buildDoc kvs] else []) ++ extraerKVs kvs
  | .arr xs => extraerList xs
  | _ => []

/-- The walk over `obj.values()`. -/
def extraerKVs : List (String × Json) → List Doc
  | [] => []
  | (_, v) :: rest => extraer_documentos v ++ extraerKVs rest

/-- The walk over the items of a list node. -/
def extraerList : List Json → List Doc
  | [] => []
  | x :: rest => extraer_documentos x ++ extraerList rest

end

/-! ## boe_digest.py : classification -/

/-- The lowercase haystack of `clasificar_por_tema`:
`f"{doc['titulo']} {doc['seccion']} {doc['departamento']}".lower()`. -/
def textoBusqueda (doc : Doc) : String :=
  pyLower (pyStr doc.titulo ++ " " ++ pyStr doc.seccion ++ " " ++ pyStr doc.departamento)

/-- The active-topic computation of `clasificar_por_tema`: a truthy
(non-`None`, non-empty) filter restricts `TEMAS_BOE` to the listed names,
anything else leaves the whole table active. -/
def temasActivos (temas_filtro : Option (List String)) : List (String × List String) :=
  match temas_filtro with
  | some f => if f.isEmpty then TEMAS_BOE else TEMAS_BOE.filter (fun kv => f.contains kv.1)
  | none => TEMAS_BOE

/-- Models `any(keyword in texto_busqueda for keyword in keywords)`. -/
def temaMatches (keywords : List String) (texto : String) : Bool :=
  keywords.any (fun keyword => pyIn keyword texto)

/-- The first topic of `temas` whose keyword list hits the haystack — the
inner `for tema, keywords ... break` loop of `clasificar_por_tema`. -/
def primerTema (temas : List (String × List String)) (texto : String) : Option String :=
  (temas.find? (fun kv => temaMatches kv.2 texto)).map (fun kv => kv.1)

/-- Models `clasificacion[tema].append(doc)` on the ordered bucket list (bucket
names are unique, so updating every matching entry models the dict update). -/
def bump (clas : List (String × List Doc)) (tema : String) (doc : Doc) :
    List (String × List Doc) :=
  clas.map (fun kv => if kv.1 = tema then (kv.1, kv.2 ++ [doc]) else kv)

/-- The body of the `for doc in documentos` loop of `clasificar_por_tema`:
append `doc` to the bucket of the first active topic whose keyword hits the
haystack (`clasificado = True; break`), or to `"otros"` when none does. -/
def pasoClasifica (temas_activos : List (String × List String))
    (clas : List (String × List Doc)) (doc : Doc) : List (String × List Doc) :=
  match primerTema temas_activos (textoBusqueda doc) with
  | some tema => bump clas tema doc
  | none => bump clas "otros" doc

/-- Embeds `clasificar_por_tema` of boe_digest.py: buckets for every table topic plus
`"otros"` are created in declaration order, each document is appended to the
bucket of its first matching active topic (or `"otros"`), and empty buckets
are dropped at the end. -/
def clasificar_por_tema (documentos : List Doc)
    (temas_filtro : Option (List String) := none) : List (String × List Doc) :=
  let clasificacion := TEMAS_BOE.map (fun kv => (kv.1, ([] : List Doc))) ++ [("otros", [])]
  let temas_activos := temasActivos temas_filtro
  let final := documentos.foldl (pasoClasifica temas_activos) clasificacion
  final.filter (fun kv => !kv.2.isEmpty)

/-- Derived view: the bucket `clasificar_por_tema` sends a document to. -/
def asignadoTema (temas_filtro : Option (List String)) (doc : Doc) : String :=
  (primerTema (temasActivos temas_filtro) (textoBusqueda doc)).getD "otros"

/-- Derived view: the bucket names in creation order (table order, then
`"otros"`). -/
def nombresBuckets : List String := TEMAS_BOE.map (fun kv => kv.1) ++ ["otros"]

/-! ## boe_digest.py : HTML digest renderer -/

/-- English month names: `strftime("%B")` under the default C locale. -/
def mesNombre (m : Nat) : String :=
  (["January", "February", "March", "April", "May", "June", "July", "August",
    "September", "October", "November", "December"]).getD (m - 1) ""

/-- Decimal value of a digit list. -/
def digitosNat (cs : List Char) : Nat :=
  cs.foldl (fun a c => a * 10 + (c.toNat - 48)) 0

/-- Models `strptime(fecha, "%Y%m%d").strftime("%d de %B de %Y")` for a
well-formed `YYYYMMDD` date (the `ValueError` Python raises on malformed
dates is outside every claim's scope). -/
def fechaLegible (fecha : String) : String :=
  let cs := fecha.data
  ((cs.drop 6).take 2).asString ++ " de " ++
    mesNombre (digitosNat ((cs.drop 4).take 2)) ++ " de " ++ (cs.take 4).asString

/-- Models `strptime(fecha, "%Y%m%d").strftime("%d/%m/%Y")`. -/
def fechaDDMMAAAA (fecha : String) : String :=
  let cs := fecha.data
  ((cs.drop 6).take 2).asString ++ "/" ++ ((cs.drop 4).take 2).asString ++ "/" ++
    (cs.take 4).asString

/-- The fixed document head of `generar_resumen_html` up to the interpolated
readable date: doctype, inline stylesheet and header opening. -/
def cabeceraPre : String :=
  "\n    <!DOCTYPE html>\n    <html>\n    <head>\n        <meta charset=\"UTF-8\">\n        <style>\n" ++
  "            body \x7b\n                font-family: Arial, sans-serif;\n                max-width: 800px;\n                margin: 0 auto;\n                padding: 20px;\n                background-color: #f5f5f5;\n            \x7d\n" ++
  "            .header \x7b\n                background-color: #1e3a8a;\n                color: white;\n                padding: 20px;\n                border-radius: 8px;\n                margin-bottom: 20px;\n            \x7d\n" ++
  "            .tema \x7b\n                background-color: white;\n                padding: 15px;\n                margin-bottom: 15px;\n                border-radius: 8px;\n                border-left: 4px solid #1e3a8a;\n            \x7d\n" ++
  "            .tema h2 \x7b\n                color: #1e3a8a;\n                margin-top: 0;\n                text-transform: capitalize;\n            \x7d\n" ++
  "            .documento \x7b\n                margin-bottom: 15px;\n                padding: 10px;\n                background-color: #f9fafb;\n                border-radius: 4px;\n            \x7d\n" ++
  "            .documento h3 \x7b\n                margin: 0 0 8px 0;\n                font-size: 16px;\n                color: #1f2937;\n            \x7d\n" ++
  "            .metadatos \x7b\n                color: #6b7280;\n                font-size: 12px;\n                margin-bottom: 8px;\n            \x7d\n" ++
  "            .enlaces a \x7b\n                display: inline-block;\n                margin-right: 10px;\n                padding: 4px 12px;\n                background-color: #3b82f6;\n                color: white;\n                text-decoration: none;\n                border-radius: 4px;\n                font-size: 12px;\n            \x7d\n" ++
  "            .enlaces a:hover \x7b\n                background-color: #2563eb;\n            \x7d\n" ++
  "            .contador \x7b\n                font-size: 14px;\n                color: #6b7280;\n                margin-bottom: 10px;\n            \x7d\n" ++
  "        </style>\n    </head>\n    <body>\n        <div class=\"header\">\n            <h1>📰 Resumen BOE - "

/-- The rest of the header block after the interpolated date. -/
def cabeceraPost : String :=
  "</h1>\n            <p>Resumen inteligente del Boletín Oficial del Estado</p>\n        </div>\n    "

/-- The initial `html` value of `generar_resumen_html`. -/
def htmlCabecera (fecha_legible : String) : String :=
  cabeceraPre ++ fecha_legible ++ cabeceraPost

/-- The closing block appended after all topic sections. -/
def pieHtml : String :=
  "\n        <div style=\"text-align: center; color: #6b7280; margin-top: 30px; padding-top: 20px; border-top: 1px solid #e5e7eb;\">\n            <p>Generado automáticamente desde la API de Datos Abiertos del BOE</p>\n        </div>\n    </body>\n    </html>\n    "

/-- The total-documents line:
`f'<p class="contador"><strong>Total de documentos:</strong> {total_docs}</p>'`. -/
def contadorHtml (total_docs : Nat) : String :=
  "<p class=\"contador\"><strong>Total de documentos:</strong> " ++ toString total_docs ++ "</p>"

/-- The section heading for one topic, showing the display name and the full
(untruncated) bucket size. -/
def cabeceraTema (tema : String) (n : Nat) : String :=
  "\n        <div class=\"tema\">\n            <h2>🏷️ " ++ pyTitle (tema.replace "_" " ") ++
    " (" ++ toString n ++ " documentos)</h2>\n        "

/-- The overflow note appended when a bucket holds more than 10 documents. -/
def notaMas (n : Nat) : String :=
  "<p class=\"metadatos\">... y " ++ toString n ++ " documentos más en esta categoría</p>"

/-- The chunk `generar_resumen_html` appends for one displayed document:
title block, optional metadata line, link row. -/
def renderDocumento (doc : Doc) : String :=
  "\n            <div class=\"documento\">\n                <h3>" ++ pyStr doc.titulo ++ "</h3>\n            " ++
  (if jsonTruthy doc.seccion || jsonTruthy doc.departamento then
      "\n                <div class=\"metadatos\">\n                    " ++
      (if jsonTruthy doc.seccion then "<strong>Sección:</strong> " ++ pyStr doc.seccion else "") ++
      "\n                    " ++
      (if jsonTruthy doc.seccion && jsonTruthy doc.departamento then " | " else "") ++
      "\n                    " ++
      (if jsonTruthy doc.departamento then "<strong>Dpto:</strong> " ++ pyStr doc.departamento else "") ++
      "\n                </div>\n                "
    else "") ++
  "<div class=\"enlaces\">" ++
  (if jsonTruthy doc.url_pdf then "<a href=\"" ++ pyStr doc.url_pdf ++ "\" target=\"_blank\">📄 PDF</a>" else "") ++
  (if jsonTruthy doc.url_html then "<a href=\"" ++ pyStr doc.url_html ++ "\" target=\"_blank\">🌐 HTML</a>" else "") ++
  "</div></div>"

/-- Everything `generar_resumen_html` appends for one topic: nothing for an
empty bucket (`if not documentos: continue`); otherwise the heading, the
chunks of the first 10 documents (`documentos[:10]`), the overflow note when
more than 10 exist, and the closing tag. -/
def renderTema (tema : String) (documentos : List Doc) : String :=
  if documentos.isEmpty then ""
  else
    (documentos.take 10).foldl (fun acc doc => acc ++ renderDocumento doc)
        (cabeceraTema tema documentos.length) ++
      (if 10 < documentos.length then notaMas (documentos.length - 10) else "") ++
      "</div>"

/-- Embeds `generar_resumen_html` of boe_digest.py: head, total counter, one section
per bucket in the classification's iteration order, closing block. -/
def generar_resumen_html (fecha : String) (clasificacion : List (String × List Doc)) : String :=
  let total_docs := (clasificacion.map (fun kv => kv.2.length)).sum
  clasificacion.foldl (fun acc kv => acc ++ renderTema kv.1 kv.2)
      (htmlCabecera (fechaLegible fecha) ++ contadorHtml total_docs) ++
    pieHtml

/-! ## boe_digest.py : fetch, email and orchestrator -/

/-- Outcome of the one external HTTP call `obtener_sumario_boe` performs:
either the decoded JSON body of a 2xx response, or the exception the
`try` block caught, as its class name and message. -/
inductive FetchResult where
  | success (body : Json)
  | failure (kind msg : String)

/-- Embeds `obtener_sumario_boe` of boe_digest.py: the decoded body on success, and
`{"error": f"{type(e).__name__}: {e}"}` when the request raised.  The `fecha`
argument only feeds the request URL, which lives in the external collaborator. -/
def obtener_sumario_boe (fecha : String) (respuesta : FetchResult) : Json :=
  match fecha, respuesta with
  | _, .success body => body
  | _, .failure kind msg => .obj [("error", .str (kind ++ ": " ++ msg))]

/-- Python truthiness of an optional string argument (`None` and `""` falsy). -/
def optTruthy : Option String → Bool
  | some s => s != ""
  | none => false

/-- The keyword arguments `enviar_email_digest` receives, plus the outcome of
the external SMTP session (starttls, login, `send_message`): `Except.error`
carries `f"{type(e).__name__}: {e}"` for the exception the `try` caught. -/
structure ConfigEmail where
  smtp_server : String := "smtp.gmail.com"
  smtp_port : Nat := 587
  remitente : Option String := none
  password : Option String := none
  envioSMTP : Except String Unit

/-- Embeds `enviar_email_digest` of boe_digest.py: an error dict when sender or
password is missing, otherwise the success dict or the stringified SMTP
exception. -/
def enviar_email_digest (destinatario : String) (asunto : String)
    (contenido_html : String) (cfg : ConfigEmail) : Json :=
  match asunto, contenido_html with
  | _, _ =>
    if !optTruthy cfg.remitente || !optTruthy cfg.password then
      .obj [("error", .str "Se requiere configurar remitente y password")]
    else
      match cfg.envioSMTP with
      | .ok _ => .obj [("status", .str "success"), ("mensaje", .str ("Email enviado a " ++ destinatario))]
      | .error e => .obj [("error", .str ("Error al enviar email: " ++ e))]

/-- The dict `generar_digest_completo` stores per document under
`documentos_por_tema`. -/
def docAJson (doc : Doc) : Json :=
  .obj [("titulo", doc.titulo), ("seccion", doc.seccion),
        ("departamento", doc.departamento), ("rango", doc.rango),
        ("url_pdf", doc.url_pdf), ("url_html", doc.url_html), ("url_xml", doc.url_xml)]

/-- Embeds `generar_digest_completo` of boe_digest.py: fetch, short-circuit on a
summary containing `"error"`, extract, classify, render, and optionally attach
the email outcome.  `respuesta` carries the external fetch outcome. -/
def generar_digest_completo (fecha : String)
    (temas_filtro : Option (List String) := none)
    (enviar_por_email : Bool := false)
    (destinatario : Option String := none)
    (config_email : Option ConfigEmail := none)
    (respuesta : FetchResult := .failure "" "") : Json :=
  let sumario := obtener_sumario_boe fecha respuesta
  if pyInStr "error" sumario then sumario
  else
    let documentos := extraer_documentos sumario
    let clasificacion := clasificar_por_tema documentos temas_filtro
    let html_resumen := generar_resumen_html fecha clasificacion
    let resultado : List (String × Json) := [
      ("fecha", .str fecha),
      ("total_documentos", .num (documentos.length : Int)),
      ("clasificacion", .obj (clasificacion.map (fun kv => (kv.1, Json.num (kv.2.length : Int))))),
      ("documentos_por_tema", .obj (clasificacion.map (fun kv => (kv.1, Json.arr (kv.2.map docAJson))))),
      ("html", .str html_resumen)]
    match enviar_por_email, destinatario, config_email with
    | true, some dest, some cfg =>
        if dest != "" then
          let asunto := "📰 Resumen BOE - " ++ fechaDDMMAAAA fecha
          .obj (resultado ++ [("email", enviar_email_digest dest asunto html_resumen cfg)])
        else .obj resultado
    | _, _, _ => .obj resultado

/-! ## app.py : `_extract_sumario_entries` -/

/-- An entry returned by `_extract_sumario_entries`: the chosen title value
(raw JSON) and the collected lowercase-url-key → string-value pairs. -/
structure Entry where
  titulo : Json
  urls : List (String × String)

/-- Builds `keys_lower = {k.lower(): k for k in x.keys()}`: insertion order of
the first occurrence of each lowered key, value overwritten by later
occurrences. -/
def insertaActualiza (acc : List (String × String)) (k v : String) : List (String × String) :=
  if acc.any (fun p => p.1 == k) then
    acc.map (fun p => if p.1 == k then (p.1, v) else p)
  else acc ++ [(k, v)]

/-- The `keys_lower` dict of `_extract_sumario_entries`. -/
def keysLower (ks : List String) : List (String × String) :=
  ks.foldl (fun acc k => insertaActualiza acc (pyLower k) k) []

/-- Models `any(k.startswith("url") for k in keys_lower.keys())`. -/
def tieneURL (kl : List (String × String)) : Bool :=
  kl.any (fun p => pyStarts p.1 "url")

/-- Models the check `"titulo" in keys_lower or "title" in keys_lower or "nombre" in keys_lower`. -/
def tieneTitulo (kl : List (String × String)) : Bool :=
  kl.any (fun p => p.1 == "titulo") || kl.any (fun p => p.1 == "title") ||
    kl.any (fun p => p.1 == "nombre")

/-- The match condition of `_extract_sumario_entries` on a dict node. -/
def sumarioMatch (kvs : List (String × Json)) : Bool :=
  let kl := keysLower (kvs.map (fun kv => kv.1))
  tieneURL kl && tieneTitulo kl

/-- Models `x.get(keys_lower.get(nombre))`: `None` when `keys_lower` lacks the name
(Python's `x.get(None)` on string-keyed dicts). -/
def buscaTitulo (kvs : List (String × Json)) (kl : List (String × String))
    (nombre : String) : Option Json :=
  match kl.find? (fun p => p.1 == nombre) with
  | some p => pyGet kvs p.2
  | none => none

/-- The entry `_extract_sumario_entries` appends for a matching node: the
first truthy candidate of the `or`-chain over "titulo"/"title"/"nombre"
(default `"(sin título)"`), and every lowercase `url*` key whose value is a
string. -/
def mkEntry (kvs : List (String × Json)) : Entry :=
  let kl := keysLower (kvs.map (fun kv => kv.1))
  let candidatos := [buscaTitulo kvs kl "titulo", buscaTitulo kvs kl "title",
    buscaTitulo kvs kl "nombre"]
  let titulo :=
    match candidatos.find? (fun o => match o with | some v => jsonTruthy v | none => false) with
    | some (some v) => v
    | _ => .str "(sin título)"
  let urls := kl.foldl
    (fun acc p =>
      if pyStarts p.1 "url" then
        match pyGet kvs p.2 with
        | some (.str s) => acc ++ [(p.1, s)]
        | _ => acc
      else acc)
    []
  { titulo := titulo, urls := urls }

mutual

/-- The inner `rec` of `_extract_sumario_entries`, threading the `out`
accumulator: each call returns immediately once `out` has reached `limit`,
otherwise a matching dict node appends its entry before the walk descends
into the node's values. -/
def sumarioRec (limit : Nat) : Json → List Entry → List Entry
  | .obj kvs, out =>
    if limit ≤ out.length then out
    else sumarioRecKVs limit kvs (if sumarioMatch kvs then out ++ [mkEntry kvs] else out)
  | .arr xs, out =>
    if limit ≤ out.length then out
    else sumarioRecList limit xs out
  | _, out => out

/-- The `for v in x.values(): rec(v)` loop. -/
def sumarioRecKVs (limit : Nat) : List (String × Json) → List Entry → List Entry
  | [], out => out
  | (_, v) :: rest, out => sumarioRecKVs limit rest (sumarioRec limit v out)

/-- The `for i in x: rec(i)` loop. -/
def sumarioRecList (limit : Nat) : List Json → List Entry → List Entry
  | [], out => out
  | x :: rest, out => sumarioRecList limit rest (sumarioRec limit x out)

end

/-- Embeds `_extract_sumario_entries` of app.py (leading underscore dropped):
run the recursive walk on an empty accumulator. -/
def extract_sumario_entries (sumario_json : Json) (limit : Nat := 12) : List Entry :=
  sumarioRec limit sumario_json []

mutual

/-- Derived pure view: the entries of every matching node in depth-first
pre-order, with no limit. -/
def entradasSumario : Json → List Entry
  | .obj kvs => (if sumarioMatch kvs then [mkEntry kvs] else []) ++ entradasSumarioKVs kvs
  | .arr xs => entradasSumarioList xs
  | _ => []

/-- Runs `entradasSumario` over a dict's values. -/
def entradasSumarioKVs : List (String × Json) → List Entry
  | [] => []
  | (_, v) :: rest => entradasSumario v ++ entradasSumarioKVs rest

/-- Runs `entradasSumario` over a list's items. -/
def entradasSumarioList : List Json → List Entry
  | [] => []
  | x :: rest => entradasSumario x ++ entradasSumarioList rest

end

/-! ## pages/2 : `extraer_documentos_sumario` -/

/-- A record built by `extraer_documentos_sumario` in the chat page (same
match rule as boe_digest's `extraer_documentos` but without the `rango` and
`url_xml` fields). -/
structure DocSumario where
  titulo : Json
  seccion : Json
  departamento : Json
  url_pdf : Json
  url_html : Json

/-- The record `extraer_documentos_sumario` appends for a matching node. -/
def buildDocSumario (kvs : List (String × Json)) : DocSumario :=
  { titulo := pyGetD kvs "titulo" (.str "Sin título")
    seccion := pyGetD kvs "seccion" (.str "")
    departamento := pyGetD kvs "departamento" (.str "")
    url_pdf := pyGetD kvs "urlPdf" (.str "")
    url_html := pyGetD kvs "urlHtml" (.str "") }

mutual

/-- The full recursive collection of `extraer_documentos_sumario`, before the
final `documentos[:limit]`. -/
def docsSumarioPagina : Json → List DocSumario
  | .obj kvs => (if docMatch kvs then [buildDocSumario kvs] else []) ++ docsSumarioPaginaKVs kvs
  | .arr xs => docsSumarioPaginaList xs
  | _ => []

/-- Runs `docsSumarioPagina` over a dict's values. -/
def docsSumarioPaginaKVs : List (String × Json) → List DocSumario
  | [] => []
  | (_, v) :: rest => docsSumarioPagina v ++ docsSumarioPaginaKVs rest

/-- Runs `docsSumarioPagina` over a list's items. -/
def docsSumarioPaginaList : List Json → List DocSumario
  | [] => []
  | x :: rest => docsSumarioPagina x ++ docsSumarioPaginaList rest

end

/-- Embeds `extraer_documentos_sumario` of pages/2: collect every matching node,
then keep the first `limit`. -/
def extraer_documentos_sumario (sumario_json : Json) (limit : Nat := 15) : List DocSumario :=
  (docsSumarioPagina sumario_json).take limit

/-! ## The subnode relation of the JSON tree walks -/

/-- Subnode relation: `SubJson x j` states that the value `x` occurs in the tree `j` (reflexively, through
dict values and list items) — exactly the nodes the recursive walks visit. -/
inductive SubJson : Json → Json → Prop where
  | refl (x : Json) : SubJson x x
  | enObj {x v : Json} {k : String} {kvs : List (String × Json)} :
      SubJson x v → (k, v) ∈ kvs → SubJson x (.obj kvs)
  | enArr {x v : Json} {xs : List Json} :
      SubJson x v → v ∈ xs → SubJson x (.arr xs)

/-! ## Shared concrete inputs and small helpers -/

/-- Concatenation of a list of strings in order (the result of a Python
`for`-loop of `+=` appends, relative to its starting value). -/
def concatena : List String → String
  | [] => ""
  | s :: rest => s ++ concatena rest

/-- A concrete extracted document whose haystack hits exactly the topic
`"empleo"` (keyword `"empleo"` in the title). -/
def docEjemplo : Doc :=
  ⟨.str "Orden de empleo juvenil", .str "II", .str "", .str "",
   .str "http://x/1.pdf", .str "", .str ""⟩

/-- A concrete extracted document whose haystack hits the keywords of two
topics: `"trabajo"` (empleo) and `"escolar"` (educación). -/
def docDoble : Doc :=
  ⟨.str "Plan de trabajo escolar", .str "", .str "", .str "", .str "", .str "", .str ""⟩

/-! ## Characterization of the classifier -/

theorem bump_map (names : List String) (acc : String → List Doc) (tema : String) (doc : Doc) :
    bump (names.map (fun t => (t, acc t))) tema doc
      = names.map (fun t => (t, acc t ++ if tema == t then [doc] else [])) := by
  unfold bump
  rw [List.map_map]
  apply List.map_congr_left
  intro t _
  by_cases h : t = tema
  · subst h; simp
  · have hb : (tema == t) = false := by simp [beq_iff_eq]; exact fun he => h he.symm
    simp [Function.comp, h, hb]

theorem paso_asignado (filtro : Option (List String)) (doc : Doc)
    (clas : List (String × List Doc)) :
    pasoClasifica (temasActivos filtro) clas doc = bump clas (asignadoTema filtro doc) doc := by
  unfold pasoClasifica asignadoTema
  cases primerTema (temasActivos filtro) (textoBusqueda doc) <;> rfl

theorem foldl_clasifica (filtro : Option (List String)) (docs : List Doc) :
    ∀ (names : List String) (acc : String → List Doc),
    docs.foldl (pasoClasifica (temasActivos filtro)) (names.map (fun t => (t, acc t)))
      = names.map (fun t => (t, acc t ++ docs.filter (fun d => asignadoTema filtro d == t))) := by
  induction docs with
  | nil => intro names acc; simp
  | cons d rest ih =>
    intro names acc
    rw [List.foldl_cons, paso_asignado, bump_map]
    rw [ih names (fun t => acc t ++ if asignadoTema filtro d == t then [d] else [])]
    apply List.map_congr_left
    intro t _
    simp only [List.filter_cons]
    by_cases h : asignadoTema filtro d == t
    · simp [h, List.append_assoc]
    · simp [h]

theorem clasificar_eq (docs : List Doc) (filtro : Option (List String)) :
    clasificar_por_tema docs filtro
      = (nombresBuckets.map (fun t => (t, docs.filter (fun d => asignadoTema filtro d == t)))).filter
          (fun kv => !kv.2.isEmpty) := by
  have hinit : TEMAS_BOE.map (fun kv => (kv.1, ([] : List Doc))) ++ [("otros", ([] : List Doc))]
      = nombresBuckets.map (fun t => (t, ([] : List Doc))) := by rfl
  simp only [clasificar_por_tema]
  rw [hinit, foldl_clasifica]
  simp

theorem mem_temasActivos_table {filtro : Option (List String)}
    {kv : String × List String} (h : kv ∈ temasActivos filtro) : kv ∈ TEMAS_BOE := by
  cases filtro with
  | none => simpa [temasActivos] using h
  | some f =>
    simp only [temasActivos] at h
    by_cases hf : f.isEmpty
    · rw [if_pos hf] at h; exact h
    · rw [if_neg hf] at h; exact (List.mem_filter.mp h).1

theorem asignado_mem (filtro : Option (List String)) (d : Doc) :
    asignadoTema filtro d ∈ nombresBuckets := by
  unfold asignadoTema
  cases hp : primerTema (temasActivos filtro) (textoBusqueda d) with
  | none => simp [nombresBuckets]
  | some t =>
    unfold primerTema at hp
    cases hf : (temasActivos filtro).find? (fun kv => temaMatches kv.2 (textoBusqueda d)) with
    | none => rw [hf] at hp; simp at hp
    | some kv =>
      rw [hf] at hp
      simp at hp
      have hkv : kv ∈ TEMAS_BOE := mem_temasActivos_table (List.mem_of_find?_eq_some hf)
      simp only [Option.getD_some, nombresBuckets, List.mem_append]
      exact Or.inl (hp ▸ List.mem_map.mpr ⟨kv, hkv, rfl⟩)

theorem flatten_filter_no_vacias (L : List (String × List Doc)) :
    ((L.filter (fun kv => !kv.2.isEmpty)).map (fun kv => kv.2)).flatten
      = (L.map (fun kv => kv.2)).flatten := by
  induction L with
  | nil => rfl
  | cons kv rest ih =>
    obtain ⟨t, b⟩ := kv
    cases b with
    | nil => simpa [List.filter_cons] using ih
    | cons x xs => simpa [List.filter_cons] using congrArg (fun l => x :: xs ++ l) ih

theorem perm_flatten_filtros (f : Doc → String) :
    ∀ (names : List String) (docs : List Doc), names.Nodup → (∀ d ∈ docs, f d ∈ names) →
    ((names.map (fun t => docs.filter (fun d => f d == t))).flatten).Perm docs := by
  intro names
  induction names with
  | nil =>
    intro docs _ hcov
    cases docs with
    | nil => simp
    | cons d r => exact absurd (hcov d (by simp)) (by simp)
  | cons n ns ih =>
    intro docs hnd hcov
    simp only [List.map_cons, List.flatten_cons]
    have hn : n ∉ ns := (List.nodup_cons.mp hnd).1
    have hrw : ∀ t ∈ ns, docs.filter (fun d => f d == t)
        = (docs.filter (fun d => !(f d == n))).filter (fun d => f d == t) := by
      intro t ht
      rw [List.filter_filter]
      apply List.filter_congr
      intro d _
      by_cases hdt : (f d == t) = true
      · have hdn : (f d == n) = false := by
          rw [beq_eq_false_iff_ne]
          intro hc
          have htn : t = n := (eq_of_beq hdt).symm.trans hc
          exact hn (htn ▸ ht)
        rw [hdt, hdn]
        rfl
      · have hdt' : (f d == t) = false := by simpa using hdt
        rw [hdt']
        simp
    rw [List.map_congr_left hrw]
    have hcov' : ∀ d ∈ docs.filter (fun d => !(f d == n)), f d ∈ ns := by
      intro d hd
      obtain ⟨hd1, hd2⟩ := List.mem_filter.mp hd
      have := hcov d hd1
      simp only [List.mem_cons] at this
      rcases this with h | h
      · rw [h] at hd2; simp at hd2
      · exact h
    have hperm := ih (docs.filter (fun d => !(f d == n))) (List.nodup_cons.mp hnd).2 hcov'
    exact (List.Perm.append_left _ hperm).trans (List.filter_append_perm _ docs)

theorem find?_eq_head_filter {α : Type} (p : α → Bool) (l : List α) :
    l.find? p = (l.filter p).head? := by
  induction l with
  | nil => rfl
  | cons a l ih =>
    by_cases h : p a
    · rw [List.find?_cons_of_pos _ h, List.filter_cons, if_pos h]; rfl
    · rw [List.find?_cons_of_neg _ (by simpa using h), List.filter_cons,
        if_neg (by simpa using h), ih]

theorem any_perm {α : Type} {l l' : List α} (h : l.Perm l') (p : α → Bool) :
    l.any p = l'.any p := by
  cases ha : l.any p with
  | true =>
    obtain ⟨x, hx, hpx⟩ := List.any_eq_true.mp ha
    exact (List.any_eq_true.mpr ⟨x, h.mem_iff.mp hx, hpx⟩).symm
  | false =>
    cases hb : l'.any p with
    | false => rfl
    | true =>
      obtain ⟨x, hx, hpx⟩ := List.any_eq_true.mp hb
      have hcontra : l.any p = true := List.any_eq_true.mpr ⟨x, h.mem_iff.mpr hx, hpx⟩
      rw [ha] at hcontra
      exact (Bool.false_ne_true hcontra).elim

theorem primerTema_perm (texto : String) :
    ∀ {T T' : List (String × List String)},
    List.Forall₂ (fun a b => a.1 = b.1 ∧ a.2.Perm b.2) T T' →
    primerTema T' texto = primerTema T texto := by
  intro T T' h
  induction h with
  | nil => rfl
  | @cons a b l l' hab _ ih =>
    obtain ⟨h1, h2⟩ := hab
    have hany : temaMatches b.2 texto = temaMatches a.2 texto := by
      unfold temaMatches
      exact (any_perm h2 (fun keyword => pyIn keyword texto)).symm
    unfold primerTema at ih ⊢
    by_cases hm : temaMatches a.2 texto
    · have hpb : (fun kv : String × List String => temaMatches kv.2 texto) b = true := by
        simpa [hany] using hm
      have hpa : (fun kv : String × List String => temaMatches kv.2 texto) a = true := by
        simpa using hm
      rw [@List.find?_cons_of_pos _ (fun kv : String × List String => temaMatches kv.2 texto) b l' hpb,
        @List.find?_cons_of_pos _ (fun kv : String × List String => temaMatches kv.2 texto) a l hpa]
      simp [h1]
    · have hpb : ¬ (fun kv : String × List String => temaMatches kv.2 texto) b = true := by
        simpa [hany] using hm
      have hpa : ¬ (fun kv : String × List String => temaMatches kv.2 texto) a = true := by
        simpa using hm
      rw [@List.find?_cons_of_neg _ (fun kv : String × List String => temaMatches kv.2 texto) b l' hpb,
        @List.find?_cons_of_neg _ (fun kv : String × List String => temaMatches kv.2 texto) a l hpa]
      exact ih

theorem map_fst_filter_map (names : List String) (F : String → List Doc) :
    ((names.map (fun t => (t, F t))).filter (fun kv => !kv.2.isEmpty)).map (fun kv => kv.1)
      = names.filter (fun t => !(F t).isEmpty) := by
  induction names with
  | nil => rfl
  | cons n ns ih =>
    simp only [List.map_cons, List.filter_cons]
    by_cases h : (F n).isEmpty
    · rw [if_neg (by simp [h]), if_neg (by simp [h])]
      exact ih
    · rw [if_pos (by simp [h]), if_pos (by simp [h])]
      simp only [List.map_cons]
      rw [ih]

theorem filter_no_vacia_any {α : Type} (p : α → Bool) (l : List α) :
    (!(l.filter p).isEmpty) = l.any p := by
  induction l with
  | nil => rfl
  | cons a l ih =>
    rw [List.filter_cons, List.any_cons]
    by_cases h : p a
    · simp [h]
    · have h' : p a = false := by simpa using h
      rw [if_neg (by simp [h']), h', ih]
      simp

/-! ## The limited walk equals take-of-collection -/

theorem take_append_take {α : Type} (n : Nat) (l m : List α) :
    ((l.take n) ++ m).take n = (l ++ m).take n := by
  rcases Nat.le_total l.length n with h | h
  · rw [List.take_of_length_le h]
  · rw [List.take_append_eq_append_take, List.take_append_eq_append_take, List.take_take]
    have h1 : min n n = n := Nat.min_self n
    have h2 : n - (l.take n).length = 0 := by
      rw [List.length_take]
      omega
    have h3 : n - l.length = 0 := by omega
    rw [h1, h2, h3]

theorem take_out_aux {α : Type} (limit : Nat) (out rest : List α) (h : out.length = limit) :
    (out ++ rest).take limit = out := by
  rw [List.take_append_eq_append_take, List.take_of_length_le (by omega), h]
  simp

mutual

theorem sumarioRec_eq (limit : Nat) :
    ∀ (x : Json) (out : List Entry), out.length ≤ limit →
    sumarioRec limit x out = (out ++ entradasSumario x).take limit
  | x, out, h => by
    cases x with
    | obj kvs =>
      rw [sumarioRec]
      by_cases hl : limit ≤ out.length
      · rw [if_pos hl, take_out_aux limit out _ (Nat.le_antisymm h hl)]
      · rw [if_neg hl]
        have hlt : out.length < limit := Nat.lt_of_not_le hl
        by_cases hm : sumarioMatch kvs
        · rw [if_pos hm, sumarioRecKVs_eq limit kvs (out ++ [mkEntry kvs])
            (by rw [List.length_append]; simp; omega)]
          rw [entradasSumario, if_pos hm, List.append_assoc]
        · rw [if_neg hm, sumarioRecKVs_eq limit kvs out h]
          rw [entradasSumario, if_neg hm]
          simp
    | arr xs =>
      rw [sumarioRec]
      by_cases hl : limit ≤ out.length
      · rw [if_pos hl, take_out_aux limit out _ (Nat.le_antisymm h hl)]
      · rw [if_neg hl, sumarioRecList_eq limit xs out h, entradasSumario]
    | null =>
      rw [show sumarioRec limit Json.null out = out from rfl,
        show entradasSumario Json.null = [] from rfl, List.append_nil,
        List.take_of_length_le h]
    | bool b =>
      rw [show sumarioRec limit (Json.bool b) out = out from rfl,
        show entradasSumario (Json.bool b) = [] from rfl, List.append_nil,
        List.take_of_length_le h]
    | num n =>
      rw [show sumarioRec limit (Json.num n) out = out from rfl,
        show entradasSumario (Json.num n) = [] from rfl, List.append_nil,
        List.take_of_length_le h]
    | str s =>
      rw [show sumarioRec limit (Json.str s) out = out from rfl,
        show entradasSumario (Json.str s) = [] from rfl, List.append_nil,
        List.take_of_length_le h]

theorem sumarioRecKVs_eq (limit : Nat) :
    ∀ (kvs : List (String × Json)) (out : List Entry), out.length ≤ limit →
    sumarioRecKVs limit kvs out = (out ++ entradasSumarioKVs kvs).take limit
  | [], out, h => by
    simp [sumarioRecKVs, entradasSumarioKVs, List.take_of_length_le h]
  | (k, v) :: rest, out, h => by
    rw [sumarioRecKVs, sumarioRec_eq limit v out h,
      sumarioRecKVs_eq limit rest ((out ++ entradasSumario v).take limit)
        (by rw [List.length_take]; omega)]
    rw [take_append_take, entradasSumarioKVs, ← List.append_assoc]

theorem sumarioRecList_eq (limit : Nat) :
    ∀ (xs : List Json) (out : List Entry), out.length ≤ limit →
    sumarioRecList limit xs out = (out ++ entradasSumarioList xs).take limit
  | [], out, h => by
    simp [sumarioRecList, entradasSumarioList, List.take_of_length_le h]
  | x :: rest, out, h => by
    rw [sumarioRecList, sumarioRec_eq limit x out h,
      sumarioRecList_eq limit rest ((out ++ entradasSumario x).take limit)
        (by rw [List.length_take]; omega)]
    rw [take_append_take, entradasSumarioList, ← List.append_assoc]

end

theorem extract_toma (sumario_json : Json) (limit : Nat) :
    extract_sumario_entries sumario_json limit = (entradasSumario sumario_json).take limit := by
  unfold extract_sumario_entries
  rw [sumarioRec_eq limit sumario_json [] (by simp)]
  rfl

/-! ## Membership in the collections vs. subnodes -/

theorem entradas_mem_kvs {k : String} {v : Json} :
    ∀ {kvs : List (String × Json)}, (k, v) ∈ kvs →
    ∀ e ∈ entradasSumario v, e ∈ entradasSumarioKVs kvs := by
  intro kvs
  induction kvs with
  | nil => intro hv; cases hv
  | cons kw rest ih =>
    obtain ⟨k', v'⟩ := kw
    intro hv e he
    rw [entradasSumarioKVs]
    rcases List.mem_cons.mp hv with h1 | h2
    · obtain ⟨hk, hv'⟩ := Prod.mk.injEq .. ▸ h1
      exact List.mem_append.mpr (Or.inl (hv' ▸ he))
    · exact List.mem_append.mpr (Or.inr (ih h2 e he))

theorem entradas_mem_list {v : Json} :
    ∀ {xs : List Json}, v ∈ xs → ∀ e ∈ entradasSumario v, e ∈ entradasSumarioList xs := by
  intro xs
  induction xs with
  | nil => intro hv; cases hv
  | cons x rest ih =>
    intro hv e he
    rw [entradasSumarioList]
    rcases List.mem_cons.mp hv with h1 | h2
    · exact List.mem_append.mpr (Or.inl (h1 ▸ he))
    · exact List.mem_append.mpr (Or.inr (ih h2 e he))

theorem entradas_mono {x j : Json} (h : SubJson x j) :
    ∀ e ∈ entradasSumario x, e ∈ entradasSumario j := by
  induction h with
  | refl => exact fun e he => he
  | enObj hsub hmem ih =>
    intro e he
    rw [entradasSumario]
    exact List.mem_append.mpr (Or.inr (entradas_mem_kvs hmem e (ih e he)))
  | enArr hsub hmem ih =>
    intro e he
    rw [entradasSumario]
    exact entradas_mem_list hmem e (ih e he)

theorem sub_mem_entradas {j : Json} {kvs : List (String × Json)}
    (hs : SubJson (.obj kvs) j) (hm : sumarioMatch kvs = true) :
    mkEntry kvs ∈ entradasSumario j := by
  apply entradas_mono hs
  rw [entradasSumario, if_pos hm]
  simp

mutual

theorem mem_entradas_sub : ∀ (j : Json) (e : Entry), e ∈ entradasSumario j →
    ∃ kvs, SubJson (.obj kvs) j ∧ sumarioMatch kvs = true ∧ e = mkEntry kvs
  | .obj kvs, e, he => by
    rw [entradasSumario] at he
    rcases List.mem_append.mp he with h1 | h2
    · by_cases hm : sumarioMatch kvs
      · rw [if_pos hm, List.mem_singleton] at h1
        exact ⟨kvs, .refl _, hm, h1⟩
      · rw [if_neg hm] at h1; cases h1
    · obtain ⟨kvs', k, v, hv, hsub, hm, he'⟩ := mem_entradasKVs_sub kvs e h2
      exact ⟨kvs', .enObj hsub hv, hm, he'⟩
  | .arr xs, e, he => by
    rw [entradasSumario] at he
    obtain ⟨kvs', v, hv, hsub, hm, he'⟩ := mem_entradasList_sub xs e he
    exact ⟨kvs', .enArr hsub hv, hm, he'⟩
  | .null, e, he => by rw [show entradasSumario Json.null = [] from rfl] at he; cases he
  | .bool b, e, he => by
    rw [show entradasSumario (Json.bool b) = [] from rfl] at he; cases he
  | .num n, e, he => by
    rw [show entradasSumario (Json.num n) = [] from rfl] at he; cases he
  | .str s, e, he => by
    rw [show entradasSumario (Json.str s) = [] from rfl] at he; cases he

theorem mem_entradasKVs_sub : ∀ (kvs : List (String × Json)) (e : Entry),
    e ∈ entradasSumarioKVs kvs →
    ∃ kvs' k v, (k, v) ∈ kvs ∧ SubJson (.obj kvs') v ∧ sumarioMatch kvs' = true ∧
      e = mkEntry kvs'
  | [], e, he => by cases he
  | (k, v) :: rest, e, he => by
    rw [entradasSumarioKVs] at he
    rcases List.mem_append.mp he with h1 | h2
    · obtain ⟨kvs', hsub, hm, he'⟩ := mem_entradas_sub v e h1
      exact ⟨kvs', k, v, by simp, hsub, hm, he'⟩
    · obtain ⟨kvs', k', v', hv, hsub, hm, he'⟩ := mem_entradasKVs_sub rest e h2
      exact ⟨kvs', k', v', List.mem_cons_of_mem _ hv, hsub, hm, he'⟩

theorem mem_entradasList_sub : ∀ (xs : List Json) (e : Entry),
    e ∈ entradasSumarioList xs →
    ∃ kvs' v, v ∈ xs ∧ SubJson (.obj kvs') v ∧ sumarioMatch kvs' = true ∧ e = mkEntry kvs'
  | [], e, he => by cases he
  | x :: rest, e, he => by
    rw [entradasSumarioList] at he
    rcases List.mem_append.mp he with h1 | h2
    · obtain ⟨kvs', hsub, hm, he'⟩ := mem_entradas_sub x e h1
      exact ⟨kvs', x, by simp, hsub, hm, he'⟩
    · obtain ⟨kvs', v, hv, hsub, hm, he'⟩ := mem_entradasList_sub rest e h2
      exact ⟨kvs', v, List.mem_cons_of_mem _ hv, hsub, hm, he'⟩

end

theorem extraer_mem_kvs {k : String} {v : Json} :
    ∀ {kvs : List (String × Json)}, (k, v) ∈ kvs →
    ∀ d ∈ extraer_documentos v, d ∈ extraerKVs kvs := by
  intro kvs
  induction kvs with
  | nil => intro hv; cases hv
  | cons kw rest ih =>
    obtain ⟨k', v'⟩ := kw
    intro hv d hd
    rw [extraerKVs]
    rcases List.mem_cons.mp hv with h1 | h2
    · obtain ⟨hk, hv'⟩ := Prod.mk.injEq .. ▸ h1
      exact List.mem_append.mpr (Or.inl (hv' ▸ hd))
    · exact List.mem_append.mpr (Or.inr (ih h2 d hd))

theorem extraer_mem_list {v : Json} :
    ∀ {xs : List Json}, v ∈ xs → ∀ d ∈ extraer_documentos v, d ∈ extraerList xs := by
  intro xs
  induction xs with
  | nil => intro hv; cases hv
  | cons x rest ih =>
    intro hv d hd
    rw [extraerList]
    rcases List.mem_cons.mp hv with h1 | h2
    · exact List.mem_append.mpr (Or.inl (h1 ▸ hd))
    · exact List.mem_append.mpr (Or.inr (ih h2 d hd))

theorem extraer_mono {x j : Json} (h : SubJson x j) :
    ∀ d ∈ extraer_documentos x, d ∈ extraer_documentos j := by
  induction h with
  | refl => exact fun d hd => hd
  | enObj hsub hmem ih =>
    intro d hd
    rw [extraer_documentos]
    exact List.mem_append.mpr (Or.inr (extraer_mem_kvs hmem d (ih d hd)))
  | enArr hsub hmem ih =>
    intro d hd
    rw [extraer_documentos]
    exact extraer_mem_list hmem d (ih d hd)

theorem sub_mem_extraer {j : Json} {kvs : List (String × Json)}
    (hs : SubJson (.obj kvs) j) (hm : docMatch kvs = true) :
    buildDoc kvs ∈ extraer_documentos j := by
  apply extraer_mono hs
  rw [extraer_documentos, if_pos hm]
  simp

mutual

theorem mem_extraer_sub : ∀ (j : Json) (d : Doc), d ∈ extraer_documentos j →
    ∃ kvs, SubJson (.obj kvs) j ∧ docMatch kvs = true ∧ d = buildDoc kvs
  | .obj kvs, d, hd => by
    rw [extraer_documentos] at hd
    rcases List.mem_append.mp hd with h1 | h2
    · by_cases hm : docMatch kvs
      · rw [if_pos hm, List.mem_singleton] at h1
        exact ⟨kvs, .refl _, hm, h1⟩
      · rw [if_neg hm] at h1; cases h1
    · obtain ⟨kvs', k, v, hv, hsub, hm, hd'⟩ := mem_extraerKVs_sub kvs d h2
      exact ⟨kvs', .enObj hsub hv, hm, hd'⟩
  | .arr xs, d, hd => by
    rw [extraer_documentos] at hd
    obtain ⟨kvs', v, hv, hsub, hm, hd'⟩ := mem_extraerList_sub xs d hd
    exact ⟨kvs', .enArr hsub hv, hm, hd'⟩
  | .null, d, hd => by rw [show extraer_documentos Json.null = [] from rfl] at hd; cases hd
  | .bool b, d, hd => by
    rw [show extraer_documentos (Json.bool b) = [] from rfl] at hd; cases hd
  | .num n, d, hd => by
    rw [show extraer_documentos (Json.num n) = [] from rfl] at hd; cases hd
  | .str s, d, hd => by
    rw [show extraer_documentos (Json.str s) = [] from rfl] at hd; cases hd

theorem mem_extraerKVs_sub : ∀ (kvs : List (String × Json)) (d : Doc),
    d ∈ extraerKVs kvs →
    ∃ kvs' k v, (k, v) ∈ kvs ∧ SubJson (.obj kvs') v ∧ docMatch kvs' = true ∧ d = buildDoc kvs'
  | [], d, hd => by cases hd
  | (k, v) :: rest, d, hd => by
    rw [extraerKVs] at hd
    rcases List.mem_append.mp hd with h1 | h2
    · obtain ⟨kvs', hsub, hm, hd'⟩ := mem_extraer_sub v d h1
      exact ⟨kvs', k, v, by simp, hsub, hm, hd'⟩
    · obtain ⟨kvs', k', v', hv, hsub, hm, hd'⟩ := mem_extraerKVs_sub rest d h2
      exact ⟨kvs', k', v', List.mem_cons_of_mem _ hv, hsub, hm, hd'⟩

theorem mem_extraerList_sub : ∀ (xs : List Json) (d : Doc),
    d ∈ extraerList xs →
    ∃ kvs' v, v ∈ xs ∧ SubJson (.obj kvs') v ∧ docMatch kvs' = true ∧ d = buildDoc kvs'
  | [], d, hd => by cases hd
  | x :: rest, d, hd => by
    rw [extraerList] at hd
    rcases List.mem_append.mp hd with h1 | h2
    · obtain ⟨kvs', hsub, hm, hd'⟩ := mem_extraer_sub x d h1
      exact ⟨kvs', x, by simp, hsub, hm, hd'⟩
    · obtain ⟨kvs', v, hv, hsub, hm, hd'⟩ := mem_extraerList_sub rest d h2
      exact ⟨kvs', v, List.mem_cons_of_mem _ hv, hsub, hm, hd'⟩

end

/-! ## The digest match rule implies the chat-page match rule -/

theorem any_congr_mem {α : Type} {f g : α → Bool} :
    ∀ {l : List α}, (∀ x ∈ l, f x = g x) → l.any f = l.any g := by
  intro l
  induction l with
  | nil => intro _; rfl
  | cons a l ih =>
    intro h
    rw [List.any_cons, List.any_cons, h a (by simp), ih (fun x hx => h x (by simp [hx]))]

theorem insertaActualiza_any (q : String → Bool) (acc : List (String × String))
    (k v : String) :
    (insertaActualiza acc k v).any (fun p => q p.1)
      = (acc.any (fun p => q p.1) || q k) := by
  unfold insertaActualiza
  by_cases h : acc.any (fun p => p.1 == k)
  · rw [if_pos h, List.any_map]
    have hkeys : ∀ p ∈ acc,
        ((fun p => q p.1) ∘ (fun p : String × String => if p.1 == k then (p.1, v) else p)) p
          = q p.1 := by
      intro p _
      by_cases hp : p.1 == k <;> simp [Function.comp, hp]
    rw [any_congr_mem hkeys]
    cases hq : q k
    · simp
    · obtain ⟨p, hp, hpk⟩ := List.any_eq_true.mp h
      have hqp : q p.1 = true := by rw [eq_of_beq hpk, hq]
      have hacc : acc.any (fun p => q p.1) = true := List.any_eq_true.mpr ⟨p, hp, hqp⟩
      rw [hacc]
      rfl
  · rw [if_neg h, List.any_append]
    simp

theorem keysLower_any (q : String → Bool) :
    ∀ (ks : List String) (acc : List (String × String)),
    (acc.any (fun p => q p.1) = true ∨ ∃ k ∈ ks, q (pyLower k) = true) →
    (ks.foldl (fun acc k => insertaActualiza acc (pyLower k) k) acc).any
        (fun p => q p.1) = true := by
  intro ks
  induction ks with
  | nil =>
    intro acc h
    rcases h with h | ⟨k, hk, _⟩
    · exact h
    · cases hk
  | cons k ks ih =>
    intro acc h
    rw [List.foldl_cons]
    rcases h with h | ⟨k', hk', hq⟩
    · exact ih _ (Or.inl (by rw [insertaActualiza_any, h]; rfl))
    · rcases List.mem_cons.mp hk' with h1 | h2
      · exact ih _ (Or.inl (by rw [insertaActualiza_any, ← h1, hq]; simp))
      · exact ih _ (Or.inr ⟨k', h2, hq⟩)

theorem chrsLead_map_low :
    ∀ {pre s : List Char}, chrsLead pre s = true →
    chrsLead (pre.map lowChar) (s.map lowChar) = true := by
  intro pre
  induction pre with
  | nil => intro s _; rfl
  | cons a as ih =>
    intro s h
    cases s with
    | nil => cases h
    | cons b bs =>
      rw [chrsLead] at h
      obtain ⟨h1, h2⟩ := Bool.and_eq_true_iff.mp h
      rw [List.map_cons, List.map_cons, chrsLead]
      rw [eq_of_beq h1]
      simp [ih h2]

theorem pyStarts_lower_url (k : String) (h : pyStarts k "url" = true) :
    pyStarts (pyLower k) "url" = true := by
  unfold pyStarts at h ⊢
  unfold pyLower
  rw [show (List.asString (k.data.map lowChar)).data = k.data.map lowChar from rfl]
  have h2 := chrsLead_map_low h
  rw [show ("url".data.map lowChar) = "url".data from rfl] at h2
  exact h2

theorem docMatch_sumarioMatch (kvs : List (String × Json)) (h : docMatch kvs = true) :
    sumarioMatch kvs = true := by
  unfold docMatch at h
  obtain ⟨h1, h2⟩ := Bool.and_eq_true_iff.mp h
  unfold sumarioMatch keysLower
  apply Bool.and_eq_true_iff.mpr
  constructor
  · unfold tieneURL
    obtain ⟨kv, hkv, hurl⟩ := List.any_eq_true.mp h2
    apply keysLower_any (fun s => pyStarts s "url")
    exact Or.inr ⟨kv.1, List.mem_map.mpr ⟨kv, hkv, rfl⟩, pyStarts_lower_url kv.1 hurl⟩
  · unfold tieneTitulo
    obtain ⟨kv, hkv, htit⟩ := List.any_eq_true.mp h1
    apply Bool.or_eq_true_iff.mpr
    left
    apply Bool.or_eq_true_iff.mpr
    left
    apply keysLower_any (fun s => s == "titulo")
    refine Or.inr ⟨kv.1, List.mem_map.mpr ⟨kv, hkv, rfl⟩, ?_⟩
    rw [eq_of_beq htit]
    rfl

/-! ## Renderer decomposition -/

theorem foldl_append_concatena {α : Type} (f : α → String) :
    ∀ (l : List α) (init : String),
    l.foldl (fun acc x => acc ++ f x) init = init ++ concatena (l.map f) := by
  intro l
  induction l with
  | nil => intro init; simp [concatena]
  | cons a l ih =>
    intro init
    rw [List.foldl_cons, ih, List.map_cons, concatena, ← String.append_assoc]

theorem renderTema_eq (tema : String) (documentos : List Doc) (h : documentos ≠ []) :
    renderTema tema documentos
      = cabeceraTema tema documentos.length
        ++ concatena ((documentos.take 10).map renderDocumento)
        ++ (if 10 < documentos.length then notaMas (documentos.length - 10) else "")
        ++ "</div>" := by
  unfold renderTema
  rw [if_neg (by simpa using h), foldl_append_concatena]

theorem resumen_eq (fecha : String) (clasificacion : List (String × List Doc)) :
    generar_resumen_html fecha clasificacion
      = htmlCabecera (fechaLegible fecha)
        ++ contadorHtml ((clasificacion.map (fun kv => kv.2.length)).sum)
        ++ concatena (clasificacion.map (fun kv => renderTema kv.1 kv.2))
        ++ pieHtml := by
  simp only [generar_resumen_html]
  rw [foldl_append_concatena (fun kv : String × List Doc => renderTema kv.1 kv.2)]

/-! ## Claim theorems -/

/-- C1: `clasificar_por_tema` partitions its input.  The concatenation of all
bucket contents (in bucket order) is a permutation — multiset equality — of
the input list; no bucket of the result is empty; every input document lies in
the bucket of its assigned topic; any result bucket containing a document is
that unique bucket (bucket names are pairwise distinct); hence every input
document appears in exactly one output bucket and empty buckets are dropped.
A missing section/department field is the defaulted `""` value of the
extraction step, which enters the haystack as an empty string. -/
theorem spec_c1_clasificar_particion (docs : List Doc) (filtro : Option (List String)) :
    (((clasificar_por_tema docs filtro).map (fun kv => kv.2)).flatten).Perm docs
    ∧ (∀ kv ∈ clasificar_por_tema docs filtro, kv.2 ≠ [])
    ∧ (∀ d ∈ docs, ∃ b, (asignadoTema filtro d, b) ∈ clasificar_por_tema docs filtro ∧ d ∈ b)
    ∧ (∀ (d : Doc) (kv : String × List Doc), kv ∈ clasificar_por_tema docs filtro →
        d ∈ kv.2 → kv.1 = asignadoTema filtro d)
    ∧ ((clasificar_por_tema docs filtro).map (fun kv => kv.1)).Nodup := by
  refine ⟨?_, ?_, ?_, ?_, ?_⟩
  · rw [clasificar_eq, flatten_filter_no_vacias, List.map_map]
    have hco : (∀ d ∈ docs, asignadoTema filtro d ∈ nombresBuckets) :=
      fun d _ => asignado_mem filtro d
    have hperm := perm_flatten_filtros (asignadoTema filtro) nombresBuckets docs
      (by decide) hco
    simpa [Function.comp] using hperm
  · intro kv hkv
    rw [clasificar_eq] at hkv
    have h2 := (List.mem_filter.mp hkv).2
    intro hnil
    rw [hnil] at h2
    simp at h2
  · intro d hd
    refine ⟨docs.filter (fun x => asignadoTema filtro x == asignadoTema filtro d), ?_, ?_⟩
    · rw [clasificar_eq]
      apply List.mem_filter.mpr
      refine ⟨List.mem_map.mpr ⟨asignadoTema filtro d, asignado_mem filtro d, rfl⟩, ?_⟩
      rw [filter_no_vacia_any]
      exact List.any_eq_true.mpr ⟨d, hd, by simp⟩
    · exact List.mem_filter.mpr ⟨hd, by simp⟩
  · intro d kv hkv hdkv
    rw [clasificar_eq] at hkv
    obtain ⟨hkv', _⟩ := List.mem_filter.mp hkv
    obtain ⟨t, ht, hteq⟩ := List.mem_map.mp hkv'
    rw [← hteq] at hdkv ⊢
    have hbeq := (List.mem_filter.mp hdkv).2
    exact (eq_of_beq hbeq).symm
  · rw [clasificar_eq]
    have hsub : ((nombresBuckets.map
          (fun t => (t, docs.filter (fun d => asignadoTema filtro d == t)))).filter
            (fun kv => !kv.2.isEmpty)).Sublist
        (nombresBuckets.map (fun t => (t, docs.filter (fun d => asignadoTema filtro d == t)))) :=
      List.filter_sublist _
    have hsubm := hsub.map (fun kv : String × List Doc => kv.1)
    refine List.Nodup.sublist hsubm ?_
    rw [List.map_map]
    have he : (nombresBuckets.map ((fun kv : String × List Doc => kv.1) ∘
        (fun t => (t, docs.filter (fun d => asignadoTema filtro d == t))))) = nombresBuckets := by
      have hp : ∀ t ∈ nombresBuckets, ((fun kv : String × List Doc => kv.1) ∘
          (fun t => (t, docs.filter (fun d => asignadoTema filtro d == t)))) t = t :=
        fun t _ => rfl
      rw [List.map_congr_left hp]
      simp
    rw [he]
    decide

/-- Witness for C1 at a concrete input: the single example document lands in
the bucket `"empleo"` and no bucket of the result is empty. -/
theorem spec_c1_witness :
    (∃ b, ("empleo", b) ∈ clasificar_por_tema [docEjemplo] none ∧ docEjemplo ∈ b) ∧
    (∀ kv ∈ clasificar_por_tema [docEjemplo] none, kv.2 ≠ []) := by
  have h := spec_c1_clasificar_particion [docEjemplo] none
  refine ⟨?_, h.2.1⟩
  have ha : asignadoTema none docEjemplo = "empleo" := rfl
  exact ha ▸ h.2.2.1 docEjemplo (by simp)

/-- C2 counterexample: on a one-document input, the filter `["foo"]` (only
unknown names) leaves no active topic and sends the document to `"otros"`,
while omitting the unknown entry (passing no filter) classifies it into
`"empleo"` — so a filter containing only unknown topic names is not
equivalent to omitting those entries or to passing no filter. -/
theorem spec_c2_contraejemplo :
    clasificar_por_tema [docEjemplo] (some ["foo"]) = [("otros", [docEjemplo])]
    ∧ clasificar_por_tema [docEjemplo] none = [("empleo", [docEjemplo])]
    ∧ clasificar_por_tema [docEjemplo] (some ["foo"]) ≠ clasificar_por_tema [docEjemplo] none := by
  refine ⟨rfl, rfl, ?_⟩
  intro h
  rw [show clasificar_por_tema [docEjemplo] (some ["foo"]) = [("otros", [docEjemplo])] from rfl,
    show clasificar_por_tema [docEjemplo] none = [("empleo", [docEjemplo])] from rfl] at h
  simp at h

/-- C2 amended: an empty `temas_filtro` is equivalent to passing no filter,
and unknown filter entries are ignored provided at least one known table
topic remains in the filter: classifying with such a filter equals
classifying with the unknown entries removed.  (A non-empty filter whose
entries are all unknown instead leaves no active topic, per the
counterexample.) -/
theorem spec_c2_amended (docs : List Doc) (f : List String) :
    clasificar_por_tema docs (some []) = clasificar_por_tema docs none
    ∧ (f.filter (fun k => (TEMAS_BOE.map (fun kv => kv.1)).contains k) ≠ [] →
        clasificar_por_tema docs (some f)
          = clasificar_por_tema docs
              (some (f.filter (fun k => (TEMAS_BOE.map (fun kv => kv.1)).contains k)))) := by
  constructor
  · rfl
  · intro hne
    have hta : temasActivos (some f)
        = temasActivos (some (f.filter (fun k => (TEMAS_BOE.map (fun kv => kv.1)).contains k))) := by
      simp only [temasActivos]
      have hf : ¬ f.isEmpty = true := by
        intro hemp
        rw [List.isEmpty_iff.mp hemp] at hne
        simp at hne
      have hf' : ¬ (f.filter (fun k => (TEMAS_BOE.map (fun kv => kv.1)).contains k)).isEmpty = true := by
        intro hemp
        exact hne (List.isEmpty_iff.mp hemp)
      rw [if_neg hf, if_neg hf']
      apply List.filter_congr
      intro kv hkv
      have hkey : (TEMAS_BOE.map (fun kv => kv.1)).contains kv.1 = true :=
        List.elem_iff.mpr (List.mem_map.mpr ⟨kv, hkv, rfl⟩)
      have hiff : (f.contains kv.1 = true) ↔
          ((f.filter (fun k => (TEMAS_BOE.map (fun kv => kv.1)).contains k)).contains kv.1 = true) := by
        rw [List.elem_iff, List.elem_iff]
        constructor
        · intro hmem; exact List.mem_filter.mpr ⟨hmem, hkey⟩
        · intro hmem; exact (List.mem_filter.mp hmem).1
      cases hc : f.contains kv.1
      · cases hc2 : (f.filter (fun k => (TEMAS_BOE.map (fun kv => kv.1)).contains k)).contains kv.1
        · rfl
        · rw [hc] at hiff
          exact absurd (hiff.mpr hc2) (by simp)
      · exact (hiff.mp hc).symm
    simp only [clasificar_por_tema]
    rw [hta]

/-- Witness for C2's amended statement at a concrete input: the filter
`["foo", "empleo"]` classifies exactly like the filter with the unknown
`"foo"` removed. -/
theorem spec_c2_witness :
    clasificar_por_tema [docEjemplo] (some ["foo", "empleo"])
      = clasificar_por_tema [docEjemplo] (some ["empleo"]) := by
  have h := (spec_c2_amended [docEjemplo] ["foo", "empleo"]).2 (by decide)
  rw [show (["foo", "empleo"].filter
      (fun k => (TEMAS_BOE.map (fun kv => kv.1)).contains k)) = ["empleo"] from rfl] at h
  exact h

/-- C3 counterexample: the node `{"title": "X", "urlPdf": "u"}` qualifies
under the claim's rule (`sumarioMatch`: a case-insensitive
titulo/title/nombre key and a key whose lowercased form starts with "url"),
and the chat-page extractor returns it, but `extraer_documentos` of
boe_digest.py — one of the extract implementations the claim covers —
returns nothing for it, because it requires the exact key `"titulo"`. -/
theorem spec_c3_contraejemplo :
    sumarioMatch [("title", Json.str "X"), ("urlPdf", Json.str "u")] = true
    ∧ extraer_documentos (.obj [("title", Json.str "X"), ("urlPdf", Json.str "u")]) = []
    ∧ extract_sumario_entries (.obj [("title", Json.str "X"), ("urlPdf", Json.str "u")]) 12
        = [{ titulo := Json.str "X", urls := [("urlpdf", "u")] }] :=
  ⟨rfl, rfl, rfl⟩

/-- C3 amended: the claimed iff holds for the chat page's
`_extract_sumario_entries` — every returned entry comes from a subnode with a
case-insensitive titulo/title/nombre key and a lowercased-"url"-prefixed key
(`sumarioMatch`), and within the limit every such subnode is returned.  The
digest module's `extraer_documentos` obeys the analogous iff only for its
stricter rule (`docMatch`: exact key `"titulo"`, case-sensitive "url"
prefix); since `docMatch` implies `sumarioMatch`, it also never returns a
node lacking a title-like or a url-like key. -/
theorem spec_c3_amended :
    (∀ (j : Json) (limit : Nat) (e : Entry), e ∈ extract_sumario_entries j limit →
      ∃ kvs, SubJson (.obj kvs) j ∧ sumarioMatch kvs = true ∧ e = mkEntry kvs)
    ∧ (∀ (j : Json) (limit : Nat) (kvs : List (String × Json)),
        (entradasSumario j).length ≤ limit → SubJson (.obj kvs) j → sumarioMatch kvs = true →
        mkEntry kvs ∈ extract_sumario_entries j limit)
    ∧ (∀ (j : Json) (d : Doc), d ∈ extraer_documentos j →
        ∃ kvs, SubJson (.obj kvs) j ∧ docMatch kvs = true ∧ d = buildDoc kvs)
    ∧ (∀ (j : Json) (kvs : List (String × Json)), SubJson (.obj kvs) j → docMatch kvs = true →
        buildDoc kvs ∈ extraer_documentos j)
    ∧ (∀ kvs : List (String × Json), docMatch kvs = true → sumarioMatch kvs = true) := by
  refine ⟨?_, ?_, ?_, ?_, ?_⟩
  · intro j limit e he
    rw [extract_toma] at he
    exact mem_entradas_sub j e ((List.take_sublist limit _).subset he)
  · intro j limit kvs hlen hsub hm
    rw [extract_toma, List.take_of_length_le hlen]
    exact sub_mem_entradas hsub hm
  · exact mem_extraer_sub
  · intro j kvs hsub hm
    exact sub_mem_extraer hsub hm
  · exact docMatch_sumarioMatch

/-- Witness for C3's amended statement at a concrete node carrying the exact
`"titulo"` and `"urlPdf"` keys: both extractors return it. -/
theorem spec_c3_witness :
    buildDoc [("titulo", Json.str "t"), ("urlPdf", Json.str "u")]
      ∈ extraer_documentos (.obj [("titulo", Json.str "t"), ("urlPdf", Json.str "u")])
    ∧ mkEntry [("titulo", Json.str "t"), ("urlPdf", Json.str "u")]
      ∈ extract_sumario_entries (.obj [("titulo", Json.str "t"), ("urlPdf", Json.str "u")]) 12 := by
  constructor
  · exact spec_c3_amended.2.2.2.1 _ _ (.refl _) rfl
  · exact spec_c3_amended.2.1 _ 12 _ (by decide) (.refl _) rfl

/-- C4: for every JSON tree and limit, `_extract_sumario_entries` returns
exactly the first `limit` entries of the depth-first pre-order collection of
qualifying nodes (`entradasSumario`, objects in insertion order, list items
in order), so with `limit ≥ N` it returns all `N` qualifying entries in
encounter order and with `limit < N` the first `limit` of them; the page's
`extraer_documentos_sumario` equally returns the first `limit` records of its
depth-first collection.  Both are pure functions of tree and limit, hence
deterministic. -/
theorem spec_c4_orden_limite (j : Json) (limit : Nat) :
    extract_sumario_entries j limit = (entradasSumario j).take limit
    ∧ extraer_documentos_sumario j limit = (docsSumarioPagina j).take limit :=
  ⟨extract_toma j limit, rfl⟩

/-- C5: the rendered digest decomposes into the fixed header, the total
counter showing the sum of all bucket sizes, one chunk per bucket in
iteration order, and the closing block; a non-empty bucket's chunk holds the
rendered entries of `documentos.take 10` — exactly `min (count, 10)` document
entries — followed by the note `notaMas (count - 10)` exactly when
`count > 10`; an empty bucket contributes nothing. -/
theorem spec_c5_render (fecha : String) (clasificacion : List (String × List Doc))
    (tema : String) (docs : List Doc) :
    generar_resumen_html fecha clasificacion
      = htmlCabecera (fechaLegible fecha)
        ++ contadorHtml ((clasificacion.map (fun kv => kv.2.length)).sum)
        ++ concatena (clasificacion.map (fun kv => renderTema kv.1 kv.2))
        ++ pieHtml
    ∧ (docs ≠ [] →
        renderTema tema docs
          = cabeceraTema tema docs.length
            ++ concatena ((docs.take 10).map renderDocumento)
            ++ (if 10 < docs.length then notaMas (docs.length - 10) else "")
            ++ "</div>"
        ∧ ((docs.take 10).map renderDocumento).length = min docs.length 10)
    ∧ (docs = [] → renderTema tema docs = "") := by
  refine ⟨resumen_eq fecha clasificacion, ?_, ?_⟩
  · intro h
    refine ⟨renderTema_eq tema docs h, ?_⟩
    rw [List.length_map, List.length_take]
    exact Nat.min_comm 10 docs.length
  · intro h
    rw [h]
    rfl

/-- Witness for C5 at a one-document bucket: one rendered entry, no overflow
note. -/
theorem spec_c5_witness :
    renderTema "empleo" [docEjemplo]
      = cabeceraTema "empleo" ([docEjemplo] : List Doc).length
        ++ concatena ((([docEjemplo] : List Doc).take 10).map renderDocumento)
        ++ (if 10 < ([docEjemplo] : List Doc).length
            then notaMas (([docEjemplo] : List Doc).length - 10) else "")
        ++ "</div>"
    ∧ ((([docEjemplo] : List Doc).take 10).map renderDocumento).length
        = min ([docEjemplo] : List Doc).length 10 :=
  (spec_c5_render "20240101" [("empleo", [docEjemplo])] "empleo" [docEjemplo]).2.1 (by simp)

/-- C6: on a fetch failure `generar_digest_completo` returns the error dict
`{"error": f"{kind}: {msg}"}` unchanged — the failure description is its only
field — and in particular the result has no `html` and no `email` key; none
of extraction, classification, rendering or the mail call contributes. -/
theorem spec_c6_fallo_fetch (fecha : String) (filtro : Option (List String))
    (enviar : Bool) (dest : Option String) (cfg : Option ConfigEmail) (kind msg : String) :
    generar_digest_completo fecha filtro enviar dest cfg (.failure kind msg)
        = .obj [("error", .str (kind ++ ": " ++ msg))]
    ∧ jsonHasKey (generar_digest_completo fecha filtro enviar dest cfg (.failure kind msg))
        "html" = false
    ∧ jsonHasKey (generar_digest_completo fecha filtro enviar dest cfg (.failure kind msg))
        "email" = false := by
  have h : generar_digest_completo fecha filtro enviar dest cfg (.failure kind msg)
      = .obj [("error", .str (kind ++ ": " ++ msg))] := by
    have hin : pyInStr "error" (obtener_sumario_boe fecha (.failure kind msg)) = true := by
      simp [obtener_sumario_boe, pyInStr, pyHasKey]
    simp only [generar_digest_completo]
    rw [if_pos hin]
    rfl
  refine ⟨h, ?_, ?_⟩ <;> rw [h] <;> rfl

/-- C7: on a successful fetch (body without an `"error"` key) with email
requested and a failing mail send, the result simultaneously carries the full
digest — fecha, total document count, per-topic classification counts,
per-topic documents, html — and the `email` field with the failing outcome. -/
theorem spec_c7_email_fallido (fecha : String) (filtro : Option (List String))
    (body : Json) (dest : String) (cfg : ConfigEmail)
    (hbody : pyInStr "error" body = false)
    (hdest : (dest != "") = true)
    (hfail : ∀ (a c : String), jsonHasKey (enviar_email_digest dest a c cfg) "error" = true) :
    generar_digest_completo fecha filtro true (some dest) (some cfg) (.success body)
      = .obj [("fecha", .str fecha),
          ("total_documentos", .num ((extraer_documentos body).length : Int)),
          ("clasificacion", .obj ((clasificar_por_tema (extraer_documentos body) filtro).map
              (fun kv => (kv.1, Json.num (kv.2.length : Int))))),
          ("documentos_por_tema", .obj ((clasificar_por_tema (extraer_documentos body) filtro).map
              (fun kv => (kv.1, Json.arr (kv.2.map docAJson))))),
          ("html", .str (generar_resumen_html fecha
              (clasificar_por_tema (extraer_documentos body) filtro))),
          ("email", enviar_email_digest dest ("📰 Resumen BOE - " ++ fechaDDMMAAAA fecha)
              (generar_resumen_html fecha
                (clasificar_por_tema (extraer_documentos body) filtro)) cfg)]
    ∧ jsonHasKey (enviar_email_digest dest ("📰 Resumen BOE - " ++ fechaDDMMAAAA fecha)
        (generar_resumen_html fecha (clasificar_por_tema (extraer_documentos body) filtro)) cfg)
        "error" = true := by
  constructor
  · simp only [generar_digest_completo, obtener_sumario_boe]
    rw [if_neg (by rw [hbody]; simp), if_pos hdest]
    rfl
  · exact hfail _ _

/-- Witness for C7: empty summary body, email requested, credentials missing,
so the mail send fails while the digest fields are all present. -/
theorem spec_c7_witness :
    generar_digest_completo "20240101" none true (some "a@b.c")
        (some ⟨"smtp.gmail.com", 587, none, none, .ok ()⟩) (.success (.obj []))
      = .obj [("fecha", .str "20240101"),
          ("total_documentos", .num ((extraer_documentos (.obj [])).length : Int)),
          ("clasificacion", .obj ((clasificar_por_tema (extraer_documentos (.obj [])) none).map
              (fun kv => (kv.1, Json.num (kv.2.length : Int))))),
          ("documentos_por_tema", .obj ((clasificar_por_tema (extraer_documentos (.obj [])) none).map
              (fun kv => (kv.1, Json.arr (kv.2.map docAJson))))),
          ("html", .str (generar_resumen_html "20240101"
              (clasificar_por_tema (extraer_documentos (.obj [])) none))),
          ("email", enviar_email_digest "a@b.c" ("📰 Resumen BOE - " ++ fechaDDMMAAAA "20240101")
              (generar_resumen_html "20240101"
                (clasificar_por_tema (extraer_documentos (.obj [])) none))
              ⟨"smtp.gmail.com", 587, none, none, .ok ()⟩)]
    ∧ jsonHasKey (enviar_email_digest "a@b.c" ("📰 Resumen BOE - " ++ fechaDDMMAAAA "20240101")
        (generar_resumen_html "20240101" (clasificar_por_tema (extraer_documentos (.obj [])) none))
        ⟨"smtp.gmail.com", 587, none, none, .ok ()⟩) "error" = true :=
  spec_c7_email_fallido "20240101" none (.obj []) "a@b.c"
    ⟨"smtp.gmail.com", 587, none, none, .ok ()⟩ rfl rfl (fun _ _ => rfl)

/-- C8: a document whose haystack hits keywords of two or more active topics
is put into the bucket of the first matching topic in the (filtered) table's
declaration order — the head of the matching sublist — and the chosen topic
is unchanged under any permutation of each topic's keyword list. -/
theorem spec_c8_primer_tema (docs : List Doc) (filtro : Option (List String)) (d : Doc)
    (t : String × List String) (rest : List (String × List String))
    (hd : d ∈ docs)
    (hmatch : (temasActivos filtro).filter
        (fun kv => temaMatches kv.2 (textoBusqueda d)) = t :: rest)
    (_hdos : rest ≠ []) :
    (∃ b, (t.1, b) ∈ clasificar_por_tema docs filtro ∧ d ∈ b)
    ∧ (∀ T' : List (String × List String),
        List.Forall₂ (fun a b => a.1 = b.1 ∧ a.2.Perm b.2) (temasActivos filtro) T' →
        primerTema T' (textoBusqueda d) = some t.1) := by
  have hasig : asignadoTema filtro d = t.1 := by
    unfold asignadoTema primerTema
    rw [find?_eq_head_filter, hmatch]
    rfl
  constructor
  · refine ⟨docs.filter (fun x => asignadoTema filtro x == asignadoTema filtro d), ?_, ?_⟩
    · rw [clasificar_eq, ← hasig]
      apply List.mem_filter.mpr
      refine ⟨List.mem_map.mpr ⟨asignadoTema filtro d, asignado_mem filtro d, rfl⟩, ?_⟩
      rw [filter_no_vacia_any]
      exact List.any_eq_true.mpr ⟨d, hd, by simp⟩
    · exact List.mem_filter.mpr ⟨hd, by simp⟩
  · intro T' hT
    rw [primerTema_perm (textoBusqueda d) hT]
    unfold primerTema
    rw [find?_eq_head_filter, hmatch]
    rfl

theorem forall2_reverso (T : List (String × List String)) :
    List.Forall₂ (fun a b => a.1 = b.1 ∧ a.2.Perm b.2) T
      (T.map (fun kv => (kv.1, kv.2.reverse))) := by
  induction T with
  | nil => exact .nil
  | cons kv rest ih => exact .cons ⟨rfl, (List.reverse_perm _).symm⟩ ih

/-- Witness for C8: the document hits both `"trabajo"` (empleo) and
`"escolar"` (educación); it lands in `"empleo"`, the first of the two in
table order, also when every keyword list is reversed. -/
theorem spec_c8_witness :
    (∃ b, ("empleo", b) ∈ clasificar_por_tema [docDoble] none ∧ docDoble ∈ b)
    ∧ primerTema (TEMAS_BOE.map (fun kv => (kv.1, kv.2.reverse))) (textoBusqueda docDoble)
        = some "empleo" := by
  have h := spec_c8_primer_tema [docDoble] none docDoble
    ("empleo", ["laboral", "trabajo", "empleo", "salarial", "pension", "seguridad social", "contrato"])
    [("educación", ["educación", "educativo", "universidad", "escolar", "formación", "docente"])]
    (by simp) rfl (by simp)
  exact ⟨h.1, h.2 _ (forall2_reverso TEMAS_BOE)⟩

/-- C9: a successful fetch whose decoded object carries a top-level `"error"`
key short-circuits `generar_digest_completo` exactly like a fetch failure:
the fetched object is returned unchanged, with no extraction, classification
or rendering contributing to the result. -/
theorem spec_c9_error_en_sumario (fecha : String) (filtro : Option (List String))
    (enviar : Bool) (dest : Option String) (cfg : Option ConfigEmail)
    (kvs : List (String × Json)) (h : pyHasKey kvs "error" = true) :
    generar_digest_completo fecha filtro enviar dest cfg (.success (.obj kvs)) = .obj kvs := by
  simp only [generar_digest_completo, obtener_sumario_boe]
  rw [if_pos (by simpa [pyInStr] using h)]

/-- Witness for C9 at a concrete body carrying an `"error"` key. -/
theorem spec_c9_witness :
    generar_digest_completo "20240101" none false none none
        (.success (.obj [("error", .str "boom"), ("data", .num 1)]))
      = .obj [("error", .str "boom"), ("data", .num 1)] :=
  spec_c9_error_en_sumario "20240101" none false none none _ rfl

/-- C10: the bucket names of `clasificar_por_tema` are exactly the fixed list
`nombresBuckets` (table topics in declaration order, then `"otros"`) filtered
by non-emptiness, so their relative order never depends on the input; and the
renderer emits one chunk per bucket in that same order. -/
theorem spec_c10_orden_buckets (docs : List Doc) (filtro : Option (List String))
    (fecha : String) :
    (clasificar_por_tema docs filtro).map (fun kv => kv.1)
      = nombresBuckets.filter (fun t => docs.any (fun d => asignadoTema filtro d == t))
    ∧ generar_resumen_html fecha (clasificar_por_tema docs filtro)
        = htmlCabecera (fechaLegible fecha)
          ++ contadorHtml (((clasificar_por_tema docs filtro).map (fun kv => kv.2.length)).sum)
          ++ concatena ((clasificar_por_tema docs filtro).map (fun kv => renderTema kv.1 kv.2))
          ++ pieHtml := by
  refine ⟨?_, resumen_eq fecha _⟩
  rw [clasificar_eq, map_fst_filter_map]
  apply List.filter_congr
  intro t _
  rw [filter_no_vacia_any]
